import Mathlib

/-!
Shallow embedding of the `sparklet` synthesiser core
(`src/sparklet/synth-engine/`) and proofs about the frozen claims.

Conventions of the embedding:

* The Rust code computes on the `fixed` crate's types `I1F31` (capacitor and
  envelope levels) and `I1F15` (`Q15`, audio samples).  We embed both as raw
  two's-complement bit patterns carried in `Int`: an `I1F31` value is its
  32-bit pattern (range `[-2^31, 2^31)`), a `Q15` value its 16-bit pattern.
  Saturating addition clamps into that range; fixed-point multiplication
  drops the extra low fraction bits of the product, which on two's-complement
  patterns is flooring division by the scale, so it is `Int.fdiv`.

* The coefficient, amplitude and phase-increment lookup tables
  (`RISE_BASE_COEFFICIENT_TABLE`, `FALL_BASE_COEFFICIENT_TABLE`,
  `QUICK_FALL_BASE_COEFFICIENT`, `DB_LINEAR_AMPLITUDE_TABLE`,
  `MIDI_TO_PHASE_INCREMENT`, and the four 256-entry wavetables) are
  build-time generated data that are not among the repository's staged
  source files; the engine only reads them.  They are carried as the
  explicit parameter `Tables` below, exactly as the Rust code carries
  references to the static tables.

* `src/sparklet/synth-engine/src/voice_bank/mod.rs` and
  `src/sparklet/synth-engine/src/adsr/mod.rs` are from two nearby snapshots
  of the crate: the voice bank calls `adsr.retrigger()` / `adsr.play()`
  without a velocity and reads a field `adsr.output`, while the staged ADSR
  takes the velocity in `play`/`retrigger` and exposes the envelope level
  through its capacitor.  We reconcile them in the only consistent way: a
  voice passes its velocity through to the ADSR call, and `ADSR.output` is
  the current envelope (capacitor) level, which is exactly what
  `get_samples` emits.
-/

namespace Sparklet

/-- Lower bound of the 32-bit two's complement range (`I1F31::MIN` bits). -/
def i32Min : Int := -(2 ^ 31)

/-- Upper bound of the 32-bit two's complement range (`I1F31::MAX` bits). -/
def i32Max : Int := 2 ^ 31 - 1

/-- Saturate into the `I1F31` bit range. -/
def satI31 (x : Int) : Int := max i32Min (min i32Max x)

/-- Lower bound of the 16-bit two's complement range (`Q15::MIN` bits). -/
def i16Min : Int := -(2 ^ 15)

/-- Upper bound of the 16-bit two's complement range (`Q15::MAX` bits). -/
def i16Max : Int := 2 ^ 15 - 1

/-- Saturate into the `Q15` bit range. -/
def satQ15 (x : Int) : Int := max i16Min (min i16Max x)

/-- `Q15::saturating_add` on bit patterns. -/
def addQ15 (a b : Int) : Int := satQ15 (a + b)

/-- `Q15::saturating_mul` on bit patterns: the `I2F30` product's low 15
fraction bits are dropped (floor) and the result saturated. -/
def mulQ15 (a b : Int) : Int := satQ15 (Int.fdiv (a * b) (2 ^ 15))

/-- `Q15::saturating_neg` on bit patterns. -/
def negQ15 (a : Int) : Int := satQ15 (-a)

/-- Arithmetic right shift of a `Q15` bit pattern (`value >> k` of the
`fixed` crate, flooring). -/
def shrQ15 (a : Int) (k : Nat) : Int := Int.fdiv a (2 ^ k)

/-- `I1F31::saturating_mul` on bit patterns (used for the decay target
`sustain_level.saturating_mul(velocity_amplitude)`). -/
def mulI31 (a b : Int) : Int := satI31 (Int.fdiv (a * b) (2 ^ 31))

/-- `BaseAndCoefficient` of `src/sparklet/synth-engine/src/adsr/mod.rs`:
one precomputed exponential-approach pair, as `I1F31` bit patterns. -/
structure BaseAndCoefficient where
  base : Int
  coefficient : Int
deriving DecidableEq, Repr

/-- `CapacitorStatus` of `src/sparklet/synth-engine/src/capacitor/mod.rs`. -/
inductive CapacitorStatus where
  | ReachedTarget
  | Charging
  | Discharging
  | QuickDischarging
deriving DecidableEq, Repr

/-- `Capacitor` of `src/sparklet/synth-engine/src/capacitor/mod.rs`:
`current` and `target` are `I1F31` bit patterns. -/
structure Capacitor where
  current : Int
  target : Int
  rise_coeff : BaseAndCoefficient
  fall_coeff : BaseAndCoefficient
  status : CapacitorStatus
deriving DecidableEq, Repr

namespace Capacitor

/-- `Capacitor::new`. -/
def new (rise_coeff fall_coeff : BaseAndCoefficient) : Capacitor :=
  { current := 0, target := 0, rise_coeff := rise_coeff,
    fall_coeff := fall_coeff, status := .ReachedTarget }

/-- `Capacitor::set_target`. -/
def set_target (c : Capacitor) (target : Int) : Capacitor :=
  { c with
    target := target
    status :=
      if c.current < target then .Charging
      else if target < c.current then .Discharging
      else .ReachedTarget }

/-- `Capacitor::set_level`. -/
def set_level (c : Capacitor) (level : Int) : Capacitor :=
  { c with current := level }

/-- `Capacitor::get_level`. -/
def get_level (c : Capacitor) : Int := c.current

/-- `Capacitor::set_rise_coeff`. -/
def set_rise_coeff (c : Capacitor) (p : BaseAndCoefficient) : Capacitor :=
  { c with rise_coeff := p }

/-- `Capacitor::set_fall_coeff`. -/
def set_fall_coeff (c : Capacitor) (p : BaseAndCoefficient) : Capacitor :=
  { c with fall_coeff := p }

/-- `Capacitor::quick_discharge`: unconditionally zeroes the target and
enters `QuickDischarging`. -/
def quick_discharge (c : Capacitor) : Capacitor :=
  { c with target := 0, status := .QuickDischarging }

/-- `Capacitor::iterate`: `value.saturating_mul_add(coeff.coefficient,
coeff.base)` on `I1F31` bit patterns. -/
def iterate (value : Int) (coeff : BaseAndCoefficient) : Int :=
  satI31 (Int.fdiv (value * coeff.coefficient) (2 ^ 31) + coeff.base)

/-- `Capacitor::step`.  The `quick` argument is the crate constant
`QUICK_FALL_BASE_COEFFICIENT` (generated table data, passed explicitly
here).  Returns the updated capacitor and the returned status. -/
def step (quick : BaseAndCoefficient) (c : Capacitor) :
    Capacitor × CapacitorStatus :=
  match c.status with
  | .ReachedTarget => (c, .ReachedTarget)
  | .Charging =>
      let next := iterate c.current c.rise_coeff
      if c.target ≤ next then
        ({ c with current := c.target, status := .ReachedTarget }, .ReachedTarget)
      else
        ({ c with current := next }, .Charging)
  | .Discharging =>
      let next := iterate c.current c.fall_coeff
      if next ≤ c.target then
        ({ c with current := c.target, status := .ReachedTarget }, .ReachedTarget)
      else
        ({ c with current := next }, .Discharging)
  | .QuickDischarging =>
      let next := iterate c.current quick
      if next ≤ c.target then
        ({ c with current := c.target, status := .ReachedTarget }, .ReachedTarget)
      else
        ({ c with current := next }, .QuickDischarging)

end Capacitor

/-- The generated lookup tables and wavetables the engine reads
(build-time data, not part of the staged sources; see the file header). -/
structure Tables where
  db_linear_amplitude : Nat → Int
  rise_table : Nat → BaseAndCoefficient
  fall_table : Nat → BaseAndCoefficient
  quick_fall : BaseAndCoefficient
  phase_increment : Nat → Nat
  sine : Nat → Int
  saw : Nat → Int
  square : Nat → Int
  triangle : Nat → Int

/-- `ADSRStage` of `src/sparklet/synth-engine/src/adsr/mod.rs`. -/
inductive ADSRStage where
  | Idle
  | Attack
  | Decay
  | Sustain
  | Release
  | QuickRelease
deriving DecidableEq, Repr

namespace ADSRStage

/-- `ADSRStage::play`. -/
def play (_ : ADSRStage) : ADSRStage := .Attack

/-- `ADSRStage::stop_playing`. -/
def stop_playing : ADSRStage → ADSRStage
  | .Idle => .Idle
  | _ => .Release

/-- `ADSRStage::quick_release`. -/
def quick_release : ADSRStage → ADSRStage
  | .Idle => .Idle
  | _ => .QuickRelease

end ADSRStage

/-- `ADSRConfig` of `src/sparklet/synth-engine/src/adsr/mod.rs`
(all fields `I1F31` bit patterns). -/
structure ADSRConfig where
  sustain_level : Int
  velocity_amplitude : Int
  rise_base_and_coefficient : BaseAndCoefficient
  fall_base_and_coefficient : BaseAndCoefficient
deriving DecidableEq, Repr

namespace ADSRConfig

/-- `ADSRConfig::new`. -/
def new (T : Tables) (sustain_config attack_config decay_release_config
    velocity : Nat) : ADSRConfig :=
  { sustain_level := T.db_linear_amplitude sustain_config
    velocity_amplitude := T.db_linear_amplitude (velocity * 2)
    rise_base_and_coefficient := T.rise_table attack_config
    fall_base_and_coefficient := T.fall_table decay_release_config }

/-- `ADSRConfig::set_velocity`. -/
def set_velocity (T : Tables) (c : ADSRConfig) (velocity : Nat) : ADSRConfig :=
  { c with velocity_amplitude := T.db_linear_amplitude (velocity * 2) }

/-- `ADSRConfig::set_sustain`. -/
def set_sustain (T : Tables) (c : ADSRConfig) (sustain_config : Nat) : ADSRConfig :=
  { c with sustain_level := T.db_linear_amplitude sustain_config }

/-- `ADSRConfig::set_rise`. -/
def set_rise (T : Tables) (c : ADSRConfig) (attack_config : Nat) : ADSRConfig :=
  { c with rise_base_and_coefficient := T.rise_table attack_config }

/-- `ADSRConfig::set_fall`. -/
def set_fall (T : Tables) (c : ADSRConfig) (decay_release_config : Nat) : ADSRConfig :=
  { c with fall_base_and_coefficient := T.fall_table decay_release_config }

end ADSRConfig

/-- `ADSRStage::progress`: advances the stage and the capacitor by one
sample and returns the new stage, the new capacitor, and the emitted
envelope level (an `I1F31` bit pattern). -/
def ADSRStage.progress (T : Tables) (cfg : ADSRConfig) :
    ADSRStage → Capacitor → ADSRStage × Capacitor × Int
  | .Idle, cap => (.Idle, cap, 0)
  | .Attack, cap =>
      let r := (cap.set_target cfg.velocity_amplitude).step T.quick_fall
      (if r.2 = .ReachedTarget then .Decay else .Attack, r.1, r.1.get_level)
  | .Decay, cap =>
      let r := (cap.set_target
        (mulI31 cfg.sustain_level cfg.velocity_amplitude)).step T.quick_fall
      (if r.2 = .ReachedTarget then .Sustain else .Decay, r.1, r.1.get_level)
  | .Sustain, cap => (.Sustain, cap, cap.get_level)
  | .Release, cap =>
      let r := (cap.set_target 0).step T.quick_fall
      (if r.2 = .ReachedTarget then .Idle else .Release, r.1, r.1.get_level)
  | .QuickRelease, cap =>
      let r := cap.quick_discharge.step T.quick_fall
      (if r.2 = .ReachedTarget then .Idle else .QuickRelease, r.1, r.1.get_level)

/-- `ADSR` of `src/sparklet/synth-engine/src/adsr/mod.rs`. -/
structure ADSR where
  stage : ADSRStage
  config : ADSRConfig
  capacitor : Capacitor
deriving DecidableEq, Repr

namespace ADSR

/-- `ADSR::new`. -/
def new (T : Tables) (sustain_config attack_config decay_release_config
    velocity : Nat) : ADSR :=
  let config := ADSRConfig.new T sustain_config attack_config
    decay_release_config velocity
  { stage := .Idle
    capacitor := Capacitor.new config.rise_base_and_coefficient
      config.fall_base_and_coefficient
    config := config }

/-- `ADSR::set_velocity`. -/
def set_velocity (T : Tables) (a : ADSR) (velocity : Nat) : ADSR :=
  { a with config := a.config.set_velocity T velocity }

/-- `ADSR::play`: resets the capacitor level to zero, stores the
velocity-derived amplitude and enters Attack. -/
def play (T : Tables) (a : ADSR) (velocity : Nat) : ADSR :=
  { a with
    capacitor := a.capacitor.set_level 0
    config := a.config.set_velocity T velocity
    stage := a.stage.play }

/-- `ADSR::retrigger`: does not touch the capacitor; stores the
velocity-derived amplitude and enters Attack. -/
def retrigger (T : Tables) (a : ADSR) (velocity : Nat) : ADSR :=
  { a with
    config := a.config.set_velocity T velocity
    stage := a.stage.play }

/-- `ADSR::stop_playing`. -/
def stop_playing (a : ADSR) : ADSR :=
  { a with stage := a.stage.stop_playing }

/-- `ADSR::quick_release`. -/
def quick_release (a : ADSR) : ADSR :=
  { a with stage := a.stage.quick_release }

/-- `ADSR::set_sustain`. -/
def set_sustain (T : Tables) (a : ADSR) (sustain_config : Nat) : ADSR :=
  { a with config := a.config.set_sustain T sustain_config }

/-- `ADSR::set_attack`: updates the config pair and the capacitor's rise
pair. -/
def set_attack (T : Tables) (a : ADSR) (attack_config : Nat) : ADSR :=
  let config := a.config.set_rise T attack_config
  { a with
    config := config
    capacitor := a.capacitor.set_rise_coeff config.rise_base_and_coefficient }

/-- `ADSR::set_decay_release`: updates the config pair and the capacitor's
fall pair. -/
def set_decay_release (T : Tables) (a : ADSR) (decay_release_config : Nat) : ADSR :=
  let config := a.config.set_fall T decay_release_config
  { a with
    config := config
    capacitor := a.capacitor.set_fall_coeff config.fall_base_and_coefficient }

/-- `ADSR::is_idle`. -/
def is_idle (a : ADSR) : Bool := a.stage == .Idle

/-- `ADSR::is_in_release`. -/
def is_in_release (a : ADSR) : Bool := a.stage == .Release

/-- `ADSR::is_in_quick_release`. -/
def is_in_quick_release (a : ADSR) : Bool := a.stage == .QuickRelease

/-- The `adsr.output` field the voice bank snapshot reads: the current
envelope level, which is what `get_samples` emits (see the file header). -/
def output (a : ADSR) : Int := a.capacitor.current

/-- `ADSR::get_samples`: advances the envelope one progress step per
output element; each element is the `I1F31` level narrowed to `Q15`
(`LossyInto` drops the low 16 fraction bits, flooring). -/
def get_samples (T : Tables) : Nat → ADSR → ADSR × List Int
  | 0, a => (a, [])
  | n + 1, a =>
      let r := a.stage.progress T a.config a.capacitor
      let a1 : ADSR := { a with stage := r.1, capacitor := r.2.1 }
      let rest := get_samples T n a1
      (rest.1, Int.fdiv r.2.2 (2 ^ 16) :: rest.2)

end ADSR

/-- `WavetableOscillator` of `src/sparklet/synth-engine/src/wavetable/mod.rs`:
`phase` and `phase_increment` are `U8F24` bit patterns (kept below `2^32`);
the wavetable is the referenced 256-entry `Q15` table. -/
structure WavetableOscillator where
  phase : Nat
  phase_increment : Nat
  wavetable : Nat → Int

namespace WavetableOscillator

/-- `WavetableOscillator::new`. -/
def new (wavetable : Nat → Int) : WavetableOscillator :=
  { phase := 0, phase_increment := 0, wavetable := wavetable }

/-- The per-sample collection loop of `WavetableOscillator::get_samples`:
for each element read the current and next table samples and the
interpolation weight (`(phase >> 9) & 0x7FFF` as a `Q15` pattern), then
advance the phase with wraparound. -/
def collect : Nat → WavetableOscillator → WavetableOscillator × List (Int × Int × Int)
  | 0, o => (o, [])
  | n + 1, o =>
      let index := o.phase / 2 ^ 24
      let s_current := o.wavetable index
      let s_next := o.wavetable ((index + 1) % 256)
      let w_next : Int := Int.ofNat ((o.phase / 2 ^ 9) % 2 ^ 15)
      let o1 : WavetableOscillator :=
        { o with phase := (o.phase + o.phase_increment) % 2 ^ 32 }
      let rest := collect n o1
      (rest.1, (s_current, s_next, w_next) :: rest.2)

/-- `WavetableOscillator::get_samples`: linear interpolation
`s_current * (MAX - w_next) + s_next * w_next`, computed with the
saturating `Q15` kernel operations applied element-wise. -/
def get_samples (n : Nat) (o : WavetableOscillator) :
    WavetableOscillator × List Int :=
  let r := collect n o
  (r.1, r.2.map fun t =>
    addQ15 (mulQ15 t.1 (addQ15 (negQ15 t.2.2) i16Max)) (mulQ15 t.2.1 t.2.2))

/-- `WavetableOscillator::set_note`: phase reset to zero, increment looked
up by MIDI note. -/
def set_note (T : Tables) (o : WavetableOscillator) (note : Nat) :
    WavetableOscillator :=
  { o with phase := 0, phase_increment := T.phase_increment note }

/-- `WavetableOscillator::set_wavetable`: swaps the table, phase preserved. -/
def set_wavetable (o : WavetableOscillator) (wavetable : Nat → Int) :
    WavetableOscillator :=
  { o with wavetable := wavetable }

end WavetableOscillator

/-- `PlayNoteResult` of `src/sparklet/synth-engine/src/voice_bank/mod.rs`. -/
inductive PlayNoteResult where
  | Success
  | AllVoicesBusy
deriving DecidableEq, Repr

/-- `Voice` of `src/sparklet/synth-engine/src/voice_bank/mod.rs`: notes and
velocities are the `u8` payloads of the `Note`/`Velocity` newtypes. -/
structure Voice where
  timestamp : Nat
  note : Nat
  velocity : Nat
  adsr : ADSR
  wavetable_osc : WavetableOscillator

namespace Voice

/-- `Voice::retrigger`. -/
def retrigger (T : Tables) (timestamp velocity : Nat) (v : Voice) : Voice :=
  { v with
    timestamp := timestamp
    velocity := velocity
    adsr := v.adsr.retrigger T velocity }

/-- `Voice::play_note`. -/
def play_note (T : Tables) (timestamp note velocity : Nat) (v : Voice) : Voice :=
  { v with
    timestamp := timestamp
    note := note
    velocity := velocity
    wavetable_osc := v.wavetable_osc.set_note T note
    adsr := v.adsr.play T velocity }

end Voice

/-- Index of the first element satisfying `p`, mirroring the Rust pattern
of a `for` loop over `iter_mut()` with an early `return`. -/
def firstIdx (p : α → Bool) : List α → Option Nat
  | [] => none
  | x :: xs => if p x then some 0 else (firstIdx p xs).map (· + 1)

/-- Replace the element at an index by the image under `f` (the effect of
mutating one element through `iter_mut()`). -/
def listModify (f : α → α) : Nat → List α → List α
  | _, [] => []
  | 0, x :: xs => f x :: xs
  | n + 1, x :: xs => x :: listModify f n xs

/-- Rust's `Iterator::min_by_key`: of several equally minimal elements the
first is returned. -/
def minByFirst (key : α → Int) : List α → Option α
  | [] => none
  | x :: xs =>
      match minByFirst key xs with
      | none => some x
      | some y => some (if key y < key x then y else x)

/-- `VoiceBank` of `src/sparklet/synth-engine/src/voice_bank/mod.rs`: the
fixed array `[Voice; N]` is carried as a list of length `N`, and the
wrapping `u32` counter as a natural kept below `2^32`. -/
structure VoiceBank where
  voices : List Voice
  timestamp_counter : Nat

namespace VoiceBank

/-- `VoiceBank::new`. -/
def new (T : Tables) (wavetable : Nat → Int)
    (sustain_config attack_config decay_release_config : Nat) (N : Nat) :
    VoiceBank :=
  { voices := List.replicate N
      { timestamp := 0, note := 0, velocity := 0
        adsr := ADSR.new T sustain_config attack_config decay_release_config 0
        wavetable_osc := WavetableOscillator.new wavetable }
    timestamp_counter := 0 }

/-- `VoiceBank::play_note` (with `retrigger = true`, as the public method
fixes): first scan for a non-idle voice holding the note and retrigger it;
otherwise scan for an idle voice and assign it fresh; otherwise report
`AllVoicesBusy` without touching anything. -/
def play_note (T : Tables) (bank : VoiceBank) (note velocity : Nat) :
    VoiceBank × PlayNoteResult :=
  match firstIdx (fun v => v.note == note && !v.adsr.is_idle) bank.voices with
  | some i =>
      let ctr := (bank.timestamp_counter + 1) % 2 ^ 32
      (
        { voices := listModify (Voice.retrigger T ctr velocity) i bank.voices
          timestamp_counter := ctr },
        .Success)
  | none =>
      match firstIdx (fun v => v.adsr.is_idle) bank.voices with
      | some i =>
          let ctr := (bank.timestamp_counter + 1) % 2 ^ 32
          (
            { voices :=
                listModify (Voice.play_note T ctr note velocity) i bank.voices
              timestamp_counter := ctr },
            .Success)
      | none => (bank, .AllVoicesBusy)

/-- `VoiceBank::release_note`: every non-idle voice holding the note gets
`stop_playing`. -/
def release_note (bank : VoiceBank) (note : Nat) : VoiceBank :=
  { bank with
    voices := bank.voices.map fun v =>
      if v.note == note && !v.adsr.is_idle then
        { v with adsr := v.adsr.stop_playing }
      else v }

/-- `VoiceBank::quick_release`: priority 1, the quietest voice in Release;
priority 2, the oldest voice that is neither idle nor already in
QuickRelease; otherwise a no-op. -/
def quick_release (bank : VoiceBank) : VoiceBank :=
  match minByFirst (fun p => p.2.adsr.output)
      (bank.voices.enum.filter fun p => p.2.adsr.is_in_release) with
  | some p =>
      { bank with
        voices := listModify (fun v => { v with adsr := v.adsr.quick_release })
          p.1 bank.voices }
  | none =>
      match minByFirst (fun p => (p.2.timestamp : Int))
          (bank.voices.enum.filter fun p =>
            !p.2.adsr.is_in_quick_release && !p.2.adsr.is_idle) with
      | some p =>
          { bank with
            voices := listModify (fun v => { v with adsr := v.adsr.quick_release })
              p.1 bank.voices }
      | none => bank

/-- `VoiceBank::count_active_voices`. -/
def count_active_voices (bank : VoiceBank) : Nat :=
  (bank.voices.filter fun v => !v.adsr.is_idle).length

/-- Modelled from the spec: `VoiceBank::count_voices_in_quick_release` is
called by `SynthEngine::render_samples` and by the crate's tests, but its
definition is not among the staged sources; the spec reads "the number of
voices already in QuickRelease". -/
def count_voices_in_quick_release (bank : VoiceBank) : Nat :=
  (bank.voices.filter fun v => v.adsr.is_in_quick_release).length

/-- Modelled from the spec: `VoiceBank::set_adsr_config_all_voices` is
called by `SynthEngine::check_and_apply_config_updates` but not among the
staged sources; the spec reads "apply ADSR parameters ... to all voices". -/
def set_adsr_config_all_voices (T : Tables) (bank : VoiceBank)
    (sustain_config attack_config decay_release_config : Nat) : VoiceBank :=
  { bank with
    voices := bank.voices.map fun v =>
      { v with
        adsr := ((v.adsr.set_sustain T sustain_config).set_attack T
          attack_config).set_decay_release T decay_release_config } }

/-- Modelled from the spec: `VoiceBank::set_wavetable_all_voices` is called
by `SynthEngine::check_and_apply_config_updates` but not among the staged
sources; the spec reads "apply ... oscillator-table selection to all
voices". -/
def set_wavetable_all_voices (bank : VoiceBank) (wavetable : Nat → Int) :
    VoiceBank :=
  { bank with
    voices := bank.voices.map fun v =>
      { v with wavetable_osc := v.wavetable_osc.set_wavetable wavetable } }

end VoiceBank

/-- `PendingNote` of `src/sparklet/synth-engine/src/lib.rs`. -/
structure PendingNote where
  note : Nat
  velocity : Nat
deriving DecidableEq, Repr

/-- `MidiEvent` of `src/sparklet/midi/src/lib.rs` (keys and velocities are
the 7-bit payloads). -/
inductive MidiEvent where
  | NoteOff (key : Nat) (vel : Nat)
  | NoteOn (key : Nat) (vel : Nat)
deriving DecidableEq, Repr

/-- `Config` of `src/sparklet/config/src/lib.rs`: pages of byte values. -/
structure Config where
  pages : List (List Nat)
deriving DecidableEq, Repr

/-- Read one config byte (`config.pages[p].values[i]`; the engine is
instantiated with enough pages and encoders for the indices it uses). -/
def Config.pageVal (cfg : Config) (p i : Nat) : Nat :=
  (cfg.pages.getD p []).getD i 0

/-- `SynthEngine` of `src/sparklet/synth-engine/src/lib.rs`.  The MIDI
receiver and the config signal are the per-cycle inputs of
`render_samples` below; the owned state is the bank and the pending-note
queue (`heapless::Deque` with capacity `VOICE_BANK_SIZE`). -/
structure SynthEngine where
  voice_bank : VoiceBank
  note_queue : List PendingNote

namespace SynthEngine

/-- `SynthEngine::get_wavetable_for_encoder`. -/
def get_wavetable_for_encoder (T : Tables) (encoder : Nat) : Nat → Int :=
  if encoder % 4 = 0 then T.sine
  else if encoder % 4 = 1 then T.saw
  else if encoder % 4 = 2 then T.square
  else if encoder % 4 = 3 then T.triangle
  else T.sine

/-- `SynthEngine::new` for a bank of `N` voices: the initial config is the
signal's value if present (`try_take`), else the defaults
`(sustain, attack, decay_release, table) = (200, 50, 100, SINE)`. -/
def new (T : Tables) (N : Nat) (initial_config : Option Config) : SynthEngine :=
  let p :=
    match initial_config with
    | some config =>
        (config.pageVal 0 1, config.pageVal 0 0, config.pageVal 0 2,
          get_wavetable_for_encoder T (config.pageVal 1 0 % 4))
    | none => (200, 50, 100, T.sine)
  { voice_bank := VoiceBank.new T p.2.2.2 p.1 p.2.1 p.2.2.1 N
    note_queue := [] }

/-- `SynthEngine::check_and_apply_config_updates` applied to the cycle's
(optional) config snapshot. -/
def check_and_apply_config_updates (T : Tables) (e : SynthEngine)
    (cfg : Option Config) : SynthEngine :=
  match cfg with
  | none => e
  | some config =>
      let attack := config.pageVal 0 0
      let sustain := config.pageVal 0 1
      let decay_release := config.pageVal 0 2
      let osc_type := config.pageVal 1 0 % 4
      let bank1 := e.voice_bank.set_adsr_config_all_voices T sustain attack
        decay_release
      let bank2 := bank1.set_wavetable_all_voices
        (get_wavetable_for_encoder T osc_type)
      { e with voice_bank := bank2 }

/-- Phase 1 of `render_samples`: one drained MIDI event.  `NoteOff`
releases the note and drops any same-pitch queue entry; `NoteOn` enqueues
a pending note unless the pitch is already queued (the `Deque`'s capacity
is the bank size; a push onto a full queue is dropped). -/
def process_midi_event (e : SynthEngine) (ev : MidiEvent) : SynthEngine :=
  match ev with
  | .NoteOff key _ =>
      { voice_bank := e.voice_bank.release_note key
        note_queue := e.note_queue.filter fun p => p.note != key }
  | .NoteOn key vel =>
      if e.note_queue.all (fun p => p.note != key) then
        if e.note_queue.length < e.voice_bank.voices.length then
          { e with note_queue := e.note_queue ++ [{ note := key, velocity := vel }] }
        else e
      else e

/-- Phase 2 of `render_samples`: drain the pending-note queue.  On
`Success` pop and continue; on `AllVoicesBusy` call `quick_release` only
when the number of still-queued notes (front included) exceeds the number
of voices already in QuickRelease, then stop, leaving the queue as is.
The third component counts the `quick_release` invocations performed. -/
def drain_note_queue (T : Tables) :
    VoiceBank → List PendingNote → VoiceBank × List PendingNote × Nat
  | bank, [] => (bank, [], 0)
  | bank, p :: rest =>
      match bank.play_note T p.note p.velocity with
      | (bank1, .Success) => drain_note_queue T bank1 rest
      | (_, .AllVoicesBusy) =>
          if rest.length + 1 > bank.count_voices_in_quick_release then
            (bank.quick_release, p :: rest, 1)
          else
            (bank, p :: rest, 0)

/-- The fixed right shift applied to every voice's contribution:
`VOICE_BIT_SHIFT_SIZE` is `0` for one voice, else `ilog2(N-1) + 1` bits of
right shift. -/
def voice_bit_shift (N : Nat) : Nat :=
  if N = 1 then 0 else Nat.log2 (N - 1) + 1

/-- The per-voice rendering loop of `render_samples`: each non-idle voice
contributes `shift(osc * envelope)` into the saturating accumulator, in
array order; idle voices are skipped.  Returns the updated voices and the
accumulator. -/
def render_voices (T : Tables) (N W : Nat) :
    List Voice → List Int → List Voice × List Int
  | [], acc => ([], acc)
  | v :: vs, acc =>
      if v.adsr.is_idle then
        let r := render_voices T N W vs acc
        (v :: r.1, r.2)
      else
        let osc := v.wavetable_osc.get_samples W
        let env := v.adsr.get_samples T W
        let mixed := (List.zipWith mulQ15 osc.2 env.2).map
          fun x => shrQ15 x (voice_bit_shift N)
        let acc1 := List.zipWith addQ15 acc mixed
        let r := render_voices T N W vs acc1
        ({ v with wavetable_osc := osc.1, adsr := env.1 } :: r.1, r.2)

/-- `SynthEngine::render_samples` for window size `W`: the Rust function
panics when the buffer's length is not `WINDOW_SIZE` (modelled as `none`);
otherwise the buffer is zeroed and every non-idle voice accumulated into
it, and the call returns the new engine state with the produced window. -/
def render_samples (T : Tables) (W : Nat) (e : SynthEngine)
    (cfg : Option Config) (events : List MidiEvent)
    (sample_buffer : List Int) : Option (SynthEngine × List Int) :=
  if sample_buffer.length ≠ W then none
  else
    let e1 := check_and_apply_config_updates T e cfg
    let e2 := events.foldl process_midi_event e1
    let d := drain_note_queue T e2.voice_bank e2.note_queue
    let r := render_voices T d.1.voices.length W d.1.voices
      (List.replicate W 0)
    some (
      { voice_bank := { voices := r.1, timestamp_counter := d.1.timestamp_counter }
        note_queue := d.2.1 },
      r.2)

/-- Run the engine over a sequence of cycles, each with its config
snapshot and drained MIDI events, collecting the produced windows. -/
def run (T : Tables) (W : Nat) (e : SynthEngine) :
    List (Option Config × List MidiEvent) → List (List Int)
  | [] => []
  | (cfg, events) :: rest =>
      match e.render_samples T W cfg events (List.replicate W 0) with
      | none => []
      | some r => r.2 :: run T W r.1 rest

end SynthEngine

/-- C5: in `Charging`, `Discharging` and `QuickDischarging` the step applies
the corresponding pair once through the saturating `value * coefficient +
base` update; a step that reaches or crosses the target lands exactly on
the target with status `ReachedTarget`, so the level never overshoots; a
capacitor at `ReachedTarget` is left untouched. -/
theorem c5_capacitor_step_never_overshoots (quick : BaseAndCoefficient)
    (c : Capacitor) :
    (c.status = .ReachedTarget → c.step quick = (c, .ReachedTarget)) ∧
    (c.status = .Charging →
      (c.step quick).1.current =
        min (Capacitor.iterate c.current c.rise_coeff) c.target ∧
      (c.step quick).1.current ≤ c.target ∧
      ((c.step quick).1.status = .ReachedTarget ↔
        c.target ≤ Capacitor.iterate c.current c.rise_coeff) ∧
      ((c.step quick).1.status = .ReachedTarget →
        (c.step quick).1.current = c.target) ∧
      (c.step quick).1.target = c.target) ∧
    (c.status = .Discharging →
      (c.step quick).1.current =
        max (Capacitor.iterate c.current c.fall_coeff) c.target ∧
      c.target ≤ (c.step quick).1.current ∧
      ((c.step quick).1.status = .ReachedTarget ↔
        Capacitor.iterate c.current c.fall_coeff ≤ c.target) ∧
      ((c.step quick).1.status = .ReachedTarget →
        (c.step quick).1.current = c.target) ∧
      (c.step quick).1.target = c.target) ∧
    (c.status = .QuickDischarging →
      (c.step quick).1.current =
        max (Capacitor.iterate c.current quick) c.target ∧
      c.target ≤ (c.step quick).1.current ∧
      ((c.step quick).1.status = .ReachedTarget ↔
        Capacitor.iterate c.current quick ≤ c.target) ∧
      ((c.step quick).1.status = .ReachedTarget →
        (c.step quick).1.current = c.target) ∧
      (c.step quick).1.target = c.target) := by
  refine ⟨fun hst => ?_, fun hst => ?_, fun hst => ?_, fun hst => ?_⟩
  · simp [Capacitor.step, hst]
  · simp only [Capacitor.step, hst]
    generalize Capacitor.iterate c.current c.rise_coeff = n
    split_ifs with h <;> simp_all <;> omega
  · simp only [Capacitor.step, hst]
    generalize Capacitor.iterate c.current c.fall_coeff = n
    split_ifs with h <;> simp_all <;> omega
  · simp only [Capacitor.step, hst]
    generalize Capacitor.iterate c.current quick = n
    split_ifs with h <;> simp_all <;> omega

/-- Concrete instance of `c5_capacitor_step_never_overshoots`: a charging
capacitor whose next value would cross the target lands exactly on it. -/
theorem c5_capacitor_step_witness :
    (({ current := 0, target := 1, rise_coeff := { base := 7, coefficient := 0 },
        fall_coeff := { base := 0, coefficient := 0 },
        status := .Charging } : Capacitor).step
      { base := 0, coefficient := 0 }).1.current = 1 := by
  have h := (c5_capacitor_step_never_overshoots { base := 0, coefficient := 0 }
    { current := 0, target := 1, rise_coeff := { base := 7, coefficient := 0 },
      fall_coeff := { base := 0, coefficient := 0 },
      status := .Charging }).2.1 rfl
  exact h.2.2.2.1 (h.2.2.1.mpr (by decide))

/-- C6: `retrigger` keeps the whole capacitor (in particular its level)
unchanged, stores the velocity-derived amplitude and enters Attack from
any stage, while `play` zeroes the capacitor level before entering
Attack. -/
theorem c6_retrigger_preserves_level (T : Tables) (a : ADSR) (velocity : Nat) :
    (a.retrigger T velocity).capacitor = a.capacitor ∧
    (a.retrigger T velocity).stage = .Attack ∧
    (a.retrigger T velocity).config.velocity_amplitude =
      T.db_linear_amplitude (velocity * 2) ∧
    (a.play T velocity).capacitor.current = 0 ∧
    (a.play T velocity).stage = .Attack ∧
    (a.play T velocity).config.velocity_amplitude =
      T.db_linear_amplitude (velocity * 2) := by
  refine ⟨rfl, rfl, rfl, rfl, rfl, rfl⟩

/-- C9 (amended): `quick_discharge` unconditionally zeroes the target,
sets `QuickDischarging` and keeps the level and configured pairs; the
subsequent stepping ignores the configured fall pair in favour of the
fixed fast-decay pair (changing the configured pairs does not change the
stepped level). -/
theorem c9_quick_discharge (quick : BaseAndCoefficient) (c : Capacitor)
    (r f : BaseAndCoefficient) :
    c.quick_discharge.target = 0 ∧
    c.quick_discharge.status = .QuickDischarging ∧
    c.quick_discharge.current = c.current ∧
    c.quick_discharge.rise_coeff = c.rise_coeff ∧
    c.quick_discharge.fall_coeff = c.fall_coeff ∧
    (((c.quick_discharge.set_rise_coeff r).set_fall_coeff f).step quick).1.current =
      (c.quick_discharge.step quick).1.current := by
  refine ⟨rfl, rfl, rfl, rfl, rfl, ?_⟩
  simp only [Capacitor.quick_discharge, Capacitor.set_rise_coeff,
    Capacitor.set_fall_coeff, Capacitor.step]
  split_ifs <;> rfl

/-- C9 counterexample: a capacitor that is already at its target
(`current = target`, status `ReachedTarget`) is still changed by
`quick_discharge` — its target is zeroed and its status becomes
`QuickDischarging` — so the call is not free of side effects there. -/
theorem c9_counterexample :
    (Capacitor.mk (2 ^ 30) (2 ^ 30) ⟨0, 0⟩ ⟨0, 0⟩ .ReachedTarget).quick_discharge ≠
      Capacitor.mk (2 ^ 30) (2 ^ 30) ⟨0, 0⟩ ⟨0, 0⟩ .ReachedTarget := by
  decide

/-- C10: `stop_playing` sends every non-Idle stage — QuickRelease
included — to Release, so `release_note` on a note held by a voice in
QuickRelease leaves that voice in the normal Release stage. -/
theorem c10_release_note_demotes_quick_release (bank : VoiceBank) (note : Nat) :
    (∀ a : ADSR, a.stage ≠ .Idle → a.stop_playing.stage = .Release) ∧
    (∀ i v, bank.voices.get? i = some v → v.note = note →
      v.adsr.stage = .QuickRelease →
      ∃ w, (bank.release_note note).voices.get? i = some w ∧
        w.adsr.stage = .Release) := by
  constructor
  · intro a ha
    rcases a with ⟨st, cfg, cap⟩
    cases st <;> simp_all [ADSR.stop_playing, ADSRStage.stop_playing]
  · intro i v hget hnote hstage
    refine ⟨{ v with adsr := v.adsr.stop_playing }, ?_, ?_⟩
    · simp only [VoiceBank.release_note, List.get?_map, hget, Option.map_some']
      have hcond : (v.note == note && !v.adsr.is_idle) = true := by
        simp [hnote, ADSR.is_idle, hstage]
      simp [hcond]
    · simp only [ADSR.stop_playing]
      rw [hstage]
      rfl

/-- Concrete instance of `c10_release_note_demotes_quick_release`: a
one-voice bank holding note 60 in QuickRelease is demoted to Release by
`release_note 60`. -/
theorem c10_witness :
    ∃ w,
      ((VoiceBank.mk
        [{ timestamp := 0, note := 60, velocity := 0
           adsr :=
             { stage := .QuickRelease
               config :=
                 { sustain_level := 0, velocity_amplitude := 0
                   rise_base_and_coefficient := { base := 0, coefficient := 0 }
                   fall_base_and_coefficient := { base := 0, coefficient := 0 } }
               capacitor := Capacitor.new { base := 0, coefficient := 0 }
                 { base := 0, coefficient := 0 } }
           wavetable_osc := WavetableOscillator.new fun _ => 0 }] 0).release_note
          60).voices.get? 0 = some w ∧ w.adsr.stage = .Release :=
  (c10_release_note_demotes_quick_release _ 60).2 0 _ rfl rfl rfl

lemma firstIdx_eq_none_iff (p : α → Bool) (l : List α) :
    firstIdx p l = none ↔ ∀ x ∈ l, p x = false := by
  induction l with
  | nil => simp [firstIdx]
  | cons x xs ih =>
      by_cases hx : p x <;> simp [firstIdx, hx, ih]

lemma firstIdx_spec (p : α → Bool) (l : List α) (i : Nat)
    (h : firstIdx p l = some i) :
    ∃ v, l.get? i = some v ∧ p v = true ∧
      ∀ j, j < i → ∀ w, l.get? j = some w → p w = false := by
  induction l generalizing i with
  | nil => simp [firstIdx] at h
  | cons x xs ih =>
      by_cases hx : p x
      · simp only [firstIdx, hx, if_pos] at h
        cases h
        exact ⟨x, rfl, hx, fun j hj => by omega⟩
      · simp only [firstIdx, hx, if_neg, Bool.false_eq_true, not_false_iff,
          Option.map_eq_some'] at h
        obtain ⟨i', hi', rfl⟩ := h
        obtain ⟨v, hget, hv, hbefore⟩ := ih i' hi'
        refine ⟨v, hget, hv, ?_⟩
        intro j hj w hw
        match j with
        | 0 =>
            simp only [List.get?] at hw
            cases hw
            simpa using hx
        | j + 1 =>
            exact hbefore j (by omega) w hw

lemma firstIdx_isSome_of_exists (p : α → Bool) (l : List α)
    (h : ∃ x ∈ l, p x = true) : ∃ i, firstIdx p l = some i := by
  cases hf : firstIdx p l with
  | none =>
      obtain ⟨x, hx, hpx⟩ := h
      have := (firstIdx_eq_none_iff p l).1 hf x hx
      simp [this] at hpx
  | some i => exact ⟨i, rfl⟩

lemma length_listModify (f : α → α) (i : Nat) (l : List α) :
    (listModify f i l).length = l.length := by
  induction l generalizing i with
  | nil => simp [listModify]
  | cons x xs ih =>
      cases i <;> simp [listModify, ih]

lemma get?_listModify_self (f : α → α) (i : Nat) (l : List α) (v : α)
    (h : l.get? i = some v) :
    (listModify f i l).get? i = some (f v) := by
  induction l generalizing i with
  | nil => simp at h
  | cons x xs ih =>
      cases i with
      | zero => simp_all [listModify]
      | succ n => simpa [listModify] using ih n h

lemma get?_listModify_ne (f : α → α) (i j : Nat) (l : List α)
    (h : j ≠ i) : (listModify f i l).get? j = l.get? j := by
  induction l generalizing i j with
  | nil => simp [listModify]
  | cons x xs ih =>
      cases i with
      | zero => cases j with
          | zero => omega
          | succ m => simp [listModify]
      | succ n => cases j with
          | zero => simp [listModify]
          | succ m => simpa [listModify] using ih n m (by omega)

lemma retrigCond_iff (note : Nat) (v : Voice) :
    ((v.note == note && !v.adsr.is_idle) = true) ↔
      (v.note = note ∧ v.adsr.stage ≠ .Idle) := by
  simp [ADSR.is_idle]

lemma idleCond_iff (v : Voice) :
    (v.adsr.is_idle = true) ↔ v.adsr.stage = .Idle := by
  simp [ADSR.is_idle]

/-- C2: `play_note` retriggers the first non-idle voice already holding the
note (allocating no new voice, idleness untouched everywhere); otherwise it
assigns the first idle voice fresh; and when no non-idle voice holds the
note and no voice is idle it returns `AllVoicesBusy` with the bank — voices
and `timestamp_counter` — exactly unchanged. -/
theorem c2_play_note_cases (T : Tables) (bank : VoiceBank) (note velocity : Nat) :
    ((∃ v ∈ bank.voices, v.note = note ∧ v.adsr.stage ≠ .Idle) →
      ∃ i v, bank.voices.get? i = some v ∧ v.note = note ∧
        v.adsr.stage ≠ .Idle ∧
        (∀ j w, j < i → bank.voices.get? j = some w →
          ¬(w.note = note ∧ w.adsr.stage ≠ .Idle)) ∧
        bank.play_note T note velocity =
          (VoiceBank.mk
            (listModify
              (Voice.retrigger T ((bank.timestamp_counter + 1) % 2 ^ 32) velocity)
              i bank.voices)
            ((bank.timestamp_counter + 1) % 2 ^ 32),
            .Success) ∧
        (∀ j w w', bank.voices.get? j = some w →
          (bank.play_note T note velocity).1.voices.get? j = some w' →
          (w'.adsr.stage = .Idle ↔ w.adsr.stage = .Idle))) ∧
    ((∀ v ∈ bank.voices, ¬(v.note = note ∧ v.adsr.stage ≠ .Idle)) →
      (∃ v ∈ bank.voices, v.adsr.stage = .Idle) →
      ∃ i v, bank.voices.get? i = some v ∧ v.adsr.stage = .Idle ∧
        (∀ j w, j < i → bank.voices.get? j = some w → w.adsr.stage ≠ .Idle) ∧
        bank.play_note T note velocity =
          (VoiceBank.mk
            (listModify
              (Voice.play_note T ((bank.timestamp_counter + 1) % 2 ^ 32) note velocity)
              i bank.voices)
            ((bank.timestamp_counter + 1) % 2 ^ 32),
            .Success)) ∧
    ((∀ v ∈ bank.voices, ¬(v.note = note ∧ v.adsr.stage ≠ .Idle)) →
      (∀ v ∈ bank.voices, v.adsr.stage ≠ .Idle) →
      bank.play_note T note velocity = (bank, .AllVoicesBusy)) := by
  refine ⟨?_, ?_, ?_⟩
  · intro hex
    obtain ⟨i, hi⟩ := firstIdx_isSome_of_exists
      (fun v => v.note == note && !v.adsr.is_idle) bank.voices (by
        obtain ⟨v, hv, hp⟩ := hex
        exact ⟨v, hv, (retrigCond_iff note v).2 hp⟩)
    obtain ⟨v, hget, hv, hbefore⟩ := firstIdx_spec _ _ _ hi
    have hplay : bank.play_note T note velocity =
        (VoiceBank.mk
          (listModify
            (Voice.retrigger T ((bank.timestamp_counter + 1) % 2 ^ 32) velocity)
            i bank.voices)
          ((bank.timestamp_counter + 1) % 2 ^ 32),
          .Success) := by
      simp [VoiceBank.play_note, hi]
    refine ⟨i, v, hget, ((retrigCond_iff note v).1 hv).1,
      ((retrigCond_iff note v).1 hv).2, ?_, hplay, ?_⟩
    · intro j w hj hw hcontra
      have h2 := hbefore j hj w hw
      have h3 := (retrigCond_iff note w).2 hcontra
      rw [h2] at h3
      exact Bool.false_ne_true h3
    · intro j w w' hw hw'
      rw [hplay] at hw'
      by_cases hji : j = i
      · subst hji
        rw [get?_listModify_self _ _ _ _ hw] at hw'
        cases hw'
        have hwv : w = v := by
          rw [hget] at hw
          cases hw
          rfl
        subst hwv
        constructor
        · intro hfalse
          simp [Voice.retrigger, ADSR.retrigger, ADSRStage.play] at hfalse
        · intro hfalse
          exact absurd hfalse ((retrigCond_iff note w).1 hv).2
      · rw [get?_listModify_ne _ _ _ _ hji] at hw'
        rw [hw] at hw'
        cases hw'
        exact Iff.rfl
  · intro hnone hex
    have hfi : firstIdx (fun v => v.note == note && !v.adsr.is_idle) bank.voices
        = none := by
      rw [firstIdx_eq_none_iff]
      intro x hx
      by_contra hc
      exact hnone x hx ((retrigCond_iff note x).1 (by
        cases h2 : (x.note == note && !x.adsr.is_idle) <;> simp_all))
    obtain ⟨i, hi⟩ := firstIdx_isSome_of_exists
      (fun v => v.adsr.is_idle) bank.voices (by
        obtain ⟨v, hv, hp⟩ := hex
        exact ⟨v, hv, (idleCond_iff v).2 hp⟩)
    obtain ⟨v, hget, hv, hbefore⟩ := firstIdx_spec _ _ _ hi
    refine ⟨i, v, hget, (idleCond_iff v).1 hv, ?_, ?_⟩
    · intro j w hj hw
      have := hbefore j hj w hw
      simp [ADSR.is_idle] at this
      exact this
    · simp [VoiceBank.play_note, hfi, hi]
  · intro hnone hbusy
    have hfi : firstIdx (fun v => v.note == note && !v.adsr.is_idle) bank.voices
        = none := by
      rw [firstIdx_eq_none_iff]
      intro x hx
      by_contra hc
      exact hnone x hx ((retrigCond_iff note x).1 (by
        cases h2 : (x.note == note && !x.adsr.is_idle) <;> simp_all))
    have hfi2 : firstIdx (fun v => v.adsr.is_idle) bank.voices = none := by
      rw [firstIdx_eq_none_iff]
      intro x hx
      cases h2 : x.adsr.is_idle
      · rfl
      · exact absurd ((idleCond_iff x).1 h2) (hbusy x hx)
    simp [VoiceBank.play_note, hfi, hfi2]

lemma minByFirst_eq_none_iff (key : α → Int) (l : List α) :
    minByFirst key l = none ↔ l = [] := by
  cases l with
  | nil => simp [minByFirst]
  | cons x xs =>
      simp only [minByFirst]
      cases minByFirst key xs <;> simp

lemma minByFirst_spec (key : α → Int) (l : List α) (a : α)
    (h : minByFirst key l = some a) :
    ∃ l₁ l₂, l = l₁ ++ a :: l₂ ∧ (∀ b ∈ l₁, key a < key b) ∧
      ∀ b ∈ l₂, key a ≤ key b := by
  induction l generalizing a with
  | nil => simp [minByFirst] at h
  | cons x xs ih =>
      cases hs : minByFirst key xs with
      | none =>
          rw [minByFirst_eq_none_iff] at hs
          subst hs
          simp only [minByFirst] at h
          cases h
          exact ⟨[], [], rfl, by simp, by simp⟩
      | some y =>
          simp only [minByFirst, hs] at h
          obtain ⟨l₁, l₂, hdecomp, hlt, hle⟩ := ih y hs
          by_cases hxy : key y < key x
          · rw [if_pos hxy] at h
            cases h
            refine ⟨x :: l₁, l₂, by rw [hdecomp]; rfl, ?_, hle⟩
            intro b hb
            rcases List.mem_cons.1 hb with rfl | hb
            · exact hxy
            · exact hlt b hb
          · rw [if_neg hxy] at h
            cases h
            push_neg at hxy
            refine ⟨[], xs, rfl, by simp, ?_⟩
            intro b hb
            rw [hdecomp] at hb
            rcases List.mem_append.1 hb with hb | hb
            · exact le_trans hxy (le_of_lt (hlt b hb))
            · rcases List.mem_cons.1 hb with rfl | hb
              · exact hxy
              · exact le_trans hxy (hle b hb)

lemma pairwise_fst_lt_enumFrom (l : List α) (n : Nat) :
    (l.enumFrom n).Pairwise (fun p q => p.1 < q.1) := by
  induction l generalizing n with
  | nil => simp
  | cons x xs ih =>
      simp only [List.enumFrom_cons]
      refine List.Pairwise.cons ?_ (ih (n + 1))
      rintro ⟨j, w⟩ hq
      have := (List.mk_mem_enumFrom_iff_le_and_getElem?_sub.1 hq).1
      simpa using by omega

lemma pairwise_fst_lt_enum (l : List α) :
    l.enum.Pairwise (fun p q => p.1 < q.1) :=
  pairwise_fst_lt_enumFrom l 0

lemma filter_enum_pairwise (l : List α) (q : Nat × α → Bool) :
    (l.enum.filter q).Pairwise (fun p r => p.1 < r.1) :=
  List.Pairwise.sublist (List.filter_sublist _) (pairwise_fst_lt_enum l)

lemma mem_filter_enum_iff (l : List α) (q : Nat × α → Bool) (i : Nat) (v : α) :
    ((i, v) ∈ l.enum.filter q) ↔ (l.get? i = some v ∧ q (i, v) = true) := by
  rw [List.mem_filter, List.mk_mem_enum_iff_getElem?, List.get?_eq_getElem?]

lemma filterLength_listModify_flip (p : α → Bool) (f : α → α) (i : Nat)
    (l : List α) (v : α) (h : l.get? i = some v) (hv : p v = false)
    (hfv : p (f v) = true) :
    ((listModify f i l).filter p).length = (l.filter p).length + 1 := by
  induction l generalizing i with
  | nil => simp at h
  | cons x xs ih =>
      cases i with
      | zero =>
          simp only [List.get?] at h
          cases h
          simp [listModify, List.filter_cons, hv, hfv]
      | succ n =>
          simp only [List.get?] at h
          simp only [listModify, List.filter_cons]
          cases p x <;> simp [ih n h]

lemma filterLength_listModify_le_succ (p : α → Bool) (f : α → α) (i : Nat)
    (l : List α) :
    ((listModify f i l).filter p).length ≤ (l.filter p).length + 1 := by
  induction l generalizing i with
  | nil => simp [listModify]
  | cons x xs ih =>
      cases i with
      | zero =>
          simp only [listModify, List.filter_cons]
          cases p (f x) <;> cases p x <;> simp <;> omega
      | succ n =>
          simp only [listModify, List.filter_cons]
          cases p x <;> simp <;> [exact ih n; skip]
          have := ih n
          omega

lemma filterLength_listModify_le (p : α → Bool) (f : α → α) (i : Nat)
    (l : List α) (hf : ∀ x, p (f x) = true → p x = true) :
    ((listModify f i l).filter p).length ≤ (l.filter p).length := by
  induction l generalizing i with
  | nil => simp [listModify]
  | cons x xs ih =>
      cases i with
      | zero =>
          simp only [listModify, List.filter_cons]
          cases hfx : p (f x)
          · cases p x <;> simp
          · rw [hf x hfx]
            simp
      | succ n =>
          simp only [listModify, List.filter_cons]
          cases p x <;> simp [ih n]

lemma snd_mem_of_mem_enum {l : List α} {j : Nat} {w : α}
    (h : (j, w) ∈ l.enum) : w ∈ l := by
  have h2 := List.mk_mem_enum_iff_getElem?.1 h
  exact List.get?_mem (by rw [List.get?_eq_getElem?]; exact h2)

lemma relCond_iff (v : Voice) :
    (v.adsr.is_in_release = true) ↔ v.adsr.stage = .Release := by
  simp [ADSR.is_in_release]

lemma oldCond_iff (v : Voice) :
    ((!v.adsr.is_in_quick_release && !v.adsr.is_idle) = true) ↔
      (v.adsr.stage ≠ .QuickRelease ∧ v.adsr.stage ≠ .Idle) := by
  simp [ADSR.is_in_quick_release, ADSR.is_idle]

lemma quick_release_voice_qr (v : Voice) (h : v.adsr.stage ≠ .Idle) :
    ({ v with adsr := v.adsr.quick_release } : Voice).adsr.stage = .QuickRelease := by
  rcases v with ⟨ts, n, vel, ⟨st, cfg, cap⟩, osc⟩
  cases st <;> simp_all [ADSR.quick_release, ADSRStage.quick_release]

/-- C3: `quick_release` forces exactly one voice into QuickRelease: first
choice is the Release-stage voice with the lowest envelope output (first
index on ties), else the non-idle non-QuickRelease voice with the smallest
timestamp (first index on ties); when neither exists the bank is
unchanged. -/
theorem c3_quick_release_selection (bank : VoiceBank) :
    ((∃ v ∈ bank.voices, v.adsr.stage = .Release) →
      ∃ i v, bank.voices.get? i = some v ∧ v.adsr.stage = .Release ∧
        (∀ j w, bank.voices.get? j = some w → w.adsr.stage = .Release →
          v.adsr.output ≤ w.adsr.output ∧
            (j < i → v.adsr.output < w.adsr.output)) ∧
        bank.quick_release = VoiceBank.mk
          (listModify (fun u => { u with adsr := u.adsr.quick_release })
            i bank.voices) bank.timestamp_counter ∧
        bank.quick_release.voices.get? i =
          some { v with adsr := v.adsr.quick_release } ∧
        ({ v with adsr := v.adsr.quick_release } : Voice).adsr.stage =
          .QuickRelease ∧
        bank.quick_release.count_voices_in_quick_release =
          bank.count_voices_in_quick_release + 1) ∧
    ((∀ v ∈ bank.voices, v.adsr.stage ≠ .Release) →
      (∃ v ∈ bank.voices, v.adsr.stage ≠ .Idle ∧ v.adsr.stage ≠ .QuickRelease) →
      ∃ i v, bank.voices.get? i = some v ∧ v.adsr.stage ≠ .Idle ∧
        v.adsr.stage ≠ .QuickRelease ∧
        (∀ j w, bank.voices.get? j = some w → w.adsr.stage ≠ .Idle →
          w.adsr.stage ≠ .QuickRelease →
          v.timestamp ≤ w.timestamp ∧ (j < i → v.timestamp < w.timestamp)) ∧
        bank.quick_release = VoiceBank.mk
          (listModify (fun u => { u with adsr := u.adsr.quick_release })
            i bank.voices) bank.timestamp_counter ∧
        bank.quick_release.voices.get? i =
          some { v with adsr := v.adsr.quick_release } ∧
        ({ v with adsr := v.adsr.quick_release } : Voice).adsr.stage =
          .QuickRelease ∧
        bank.quick_release.count_voices_in_quick_release =
          bank.count_voices_in_quick_release + 1) ∧
    ((∀ v ∈ bank.voices, v.adsr.stage ≠ .Release) →
      (∀ v ∈ bank.voices, v.adsr.stage = .Idle ∨ v.adsr.stage = .QuickRelease) →
      bank.quick_release = bank) := by
  refine ⟨?_, ?_, ?_⟩
  · intro hex
    obtain ⟨v0, hv0mem, hv0⟩ := hex
    obtain ⟨i0, hi0⟩ := List.mem_iff_get?.1 hv0mem
    have hmem0 : (i0, v0) ∈
        bank.voices.enum.filter (fun p => p.2.adsr.is_in_release) :=
      (mem_filter_enum_iff _ _ _ _).2 ⟨hi0, (relCond_iff v0).2 hv0⟩
    cases hmin : minByFirst (fun p => p.2.adsr.output)
        (bank.voices.enum.filter fun p => p.2.adsr.is_in_release) with
    | none =>
        rw [minByFirst_eq_none_iff] at hmin
        rw [hmin] at hmem0
        simp at hmem0
    | some a =>
        obtain ⟨l₁, l₂, hdec, hlt, hle⟩ := minByFirst_spec _ _ _ hmin
        have hamem : a ∈
            bank.voices.enum.filter (fun p => p.2.adsr.is_in_release) := by
          rw [hdec]
          exact List.mem_append.2 (Or.inr (List.mem_cons_self _ _))
        obtain ⟨haget, harel⟩ :=
          (mem_filter_enum_iff _ _ a.1 a.2).1 (by rw [Prod.mk.eta]; exact hamem)
        have hpw := filter_enum_pairwise bank.voices
          (fun p => p.2.adsr.is_in_release)
        rw [hdec] at hpw
        have hpw3 : ∀ b ∈ l₂, a.1 < b.1 := fun b hb =>
          List.rel_of_pairwise_cons (List.pairwise_append.1 hpw).2.1 hb
        have hrelstage := (relCond_iff a.2).1 harel
        have hquick : bank.quick_release = VoiceBank.mk
            (listModify (fun u => { u with adsr := u.adsr.quick_release })
              a.1 bank.voices) bank.timestamp_counter := by
          simp only [VoiceBank.quick_release, hmin]
        have hstageqr : ({ a.2 with adsr := a.2.adsr.quick_release } : Voice).adsr.stage
            = .QuickRelease :=
          quick_release_voice_qr a.2 (by rw [hrelstage]; intro hc; cases hc)
        refine ⟨a.1, a.2, haget, hrelstage, ?_, hquick, ?_, hstageqr, ?_⟩
        · intro j w hjget hwrel
          have hjmem : (j, w) ∈
              bank.voices.enum.filter (fun p => p.2.adsr.is_in_release) :=
            (mem_filter_enum_iff _ _ _ _).2 ⟨hjget, (relCond_iff w).2 hwrel⟩
          rw [hdec] at hjmem
          rcases List.mem_append.1 hjmem with hj1 | hj2
          · have := hlt (j, w) hj1
            exact ⟨le_of_lt this, fun _ => this⟩
          · rcases List.mem_cons.1 hj2 with heq | hj3
            · have hji : j = a.1 := congrArg Prod.fst heq
              have hwv : w = a.2 := congrArg Prod.snd heq
              subst hji hwv
              exact ⟨le_refl _, fun hc => absurd hc (lt_irrefl _)⟩
            · have hfst := hpw3 (j, w) hj3
              refine ⟨hle (j, w) hj3, fun hc => absurd hc (by omega)⟩
        · rw [hquick]
          exact get?_listModify_self _ _ _ _ haget
        · rw [hquick]
          exact filterLength_listModify_flip _ _ _ _ a.2 haget
            (by simp [ADSR.is_in_quick_release, hrelstage])
            (by simpa [ADSR.is_in_quick_release] using hstageqr)
  · intro hnorel hex
    have hempty : (bank.voices.enum.filter fun p => p.2.adsr.is_in_release)
        = [] := by
      rw [List.filter_eq_nil]
      rintro ⟨j, w⟩ hmem
      have hw : w ∈ bank.voices := snd_mem_of_mem_enum hmem
      intro hc
      exact hnorel w hw ((relCond_iff w).1 hc)
    have hmin1 : minByFirst (fun p => p.2.adsr.output)
        (bank.voices.enum.filter fun p => p.2.adsr.is_in_release) = none := by
      rw [minByFirst_eq_none_iff]
      exact hempty
    obtain ⟨v0, hv0mem, hv0a, hv0b⟩ := hex
    obtain ⟨i0, hi0⟩ := List.mem_iff_get?.1 hv0mem
    have hmem0 : (i0, v0) ∈ bank.voices.enum.filter
        (fun p => !p.2.adsr.is_in_quick_release && !p.2.adsr.is_idle) :=
      (mem_filter_enum_iff _ _ _ _).2 ⟨hi0, (oldCond_iff v0).2 ⟨hv0b, hv0a⟩⟩
    cases hmin : minByFirst (fun p => (p.2.timestamp : Int))
        (bank.voices.enum.filter fun p =>
          !p.2.adsr.is_in_quick_release && !p.2.adsr.is_idle) with
    | none =>
        rw [minByFirst_eq_none_iff] at hmin
        rw [hmin] at hmem0
        simp at hmem0
    | some a =>
        obtain ⟨l₁, l₂, hdec, hlt, hle⟩ := minByFirst_spec _ _ _ hmin
        have hamem : a ∈ bank.voices.enum.filter
            (fun p => !p.2.adsr.is_in_quick_release && !p.2.adsr.is_idle) := by
          rw [hdec]
          exact List.mem_append.2 (Or.inr (List.mem_cons_self _ _))
        obtain ⟨haget, hacond⟩ :=
          (mem_filter_enum_iff _ _ a.1 a.2).1 (by rw [Prod.mk.eta]; exact hamem)
        obtain ⟨hanqr, hanidle⟩ := (oldCond_iff a.2).1 hacond
        have hpw := filter_enum_pairwise bank.voices
          (fun p => !p.2.adsr.is_in_quick_release && !p.2.adsr.is_idle)
        rw [hdec] at hpw
        have hpw3 : ∀ b ∈ l₂, a.1 < b.1 := fun b hb =>
          List.rel_of_pairwise_cons (List.pairwise_append.1 hpw).2.1 hb
        have hquick : bank.quick_release = VoiceBank.mk
            (listModify (fun u => { u with adsr := u.adsr.quick_release })
              a.1 bank.voices) bank.timestamp_counter := by
          simp only [VoiceBank.quick_release, hmin1, hmin]
        have hstageqr : ({ a.2 with adsr := a.2.adsr.quick_release } : Voice).adsr.stage
            = .QuickRelease :=
          quick_release_voice_qr a.2 hanidle
        refine ⟨a.1, a.2, haget, hanidle, hanqr, ?_, hquick, ?_, hstageqr, ?_⟩
        · intro j w hjget hwidle hwqr
          have hjmem : (j, w) ∈ bank.voices.enum.filter
              (fun p => !p.2.adsr.is_in_quick_release && !p.2.adsr.is_idle) :=
            (mem_filter_enum_iff _ _ _ _).2 ⟨hjget, (oldCond_iff w).2 ⟨hwqr, hwidle⟩⟩
          rw [hdec] at hjmem
          rcases List.mem_append.1 hjmem with hj1 | hj2
          · have := hlt (j, w) hj1
            have hnat : a.2.timestamp < w.timestamp := by exact_mod_cast this
            exact ⟨le_of_lt hnat, fun _ => hnat⟩
          · rcases List.mem_cons.1 hj2 with heq | hj3
            · have hji : j = a.1 := congrArg Prod.fst heq
              have hwv : w = a.2 := congrArg Prod.snd heq
              subst hji hwv
              exact ⟨le_refl _, fun hc => absurd hc (lt_irrefl _)⟩
            · have hfst := hpw3 (j, w) hj3
              have hnat : a.2.timestamp ≤ w.timestamp := by
                exact_mod_cast hle (j, w) hj3
              exact ⟨hnat, fun hc => absurd hc (by omega)⟩
        · rw [hquick]
          exact get?_listModify_self _ _ _ _ haget
        · rw [hquick]
          exact filterLength_listModify_flip _ _ _ _ a.2 haget
            (by simp [ADSR.is_in_quick_release, Bool.not_eq_true] at hanqr ⊢
                exact hanqr)
            (by simpa [ADSR.is_in_quick_release] using hstageqr)
  · intro hnorel hidleqr
    have hempty1 : (bank.voices.enum.filter fun p => p.2.adsr.is_in_release)
        = [] := by
      rw [List.filter_eq_nil]
      rintro ⟨j, w⟩ hmem
      have hw : w ∈ bank.voices := snd_mem_of_mem_enum hmem
      intro hc
      exact hnorel w hw ((relCond_iff w).1 hc)
    have hempty2 : (bank.voices.enum.filter fun p =>
        !p.2.adsr.is_in_quick_release && !p.2.adsr.is_idle) = [] := by
      rw [List.filter_eq_nil]
      rintro ⟨j, w⟩ hmem
      have hw : w ∈ bank.voices := snd_mem_of_mem_enum hmem
      intro hc
      obtain ⟨h1, h2⟩ := (oldCond_iff w).1 hc
      rcases hidleqr w hw with h3 | h3
      · exact h2 h3
      · exact h1 h3
    have hmin1 : minByFirst (fun p => p.2.adsr.output)
        (bank.voices.enum.filter fun p => p.2.adsr.is_in_release) = none := by
      rw [minByFirst_eq_none_iff]; exact hempty1
    have hmin2 : minByFirst (fun p => (p.2.timestamp : Int))
        (bank.voices.enum.filter fun p =>
          !p.2.adsr.is_in_quick_release && !p.2.adsr.is_idle) = none := by
      rw [minByFirst_eq_none_iff]; exact hempty2
    simp only [VoiceBank.quick_release, hmin1, hmin2]

lemma count_qr_play_note_le (T : Tables) (bank : VoiceBank) (note vel : Nat) :
    (bank.play_note T note vel).1.count_voices_in_quick_release ≤
      bank.count_voices_in_quick_release := by
  unfold VoiceBank.play_note
  cases h1 : firstIdx (fun v => v.note == note && !v.adsr.is_idle) bank.voices with
  | some i =>
      simp only [VoiceBank.count_voices_in_quick_release]
      exact filterLength_listModify_le _ _ _ _ (fun x hx => by
        simp [Voice.retrigger, ADSR.retrigger, ADSRStage.play,
          ADSR.is_in_quick_release] at hx)
  | none =>
      cases h2 : firstIdx (fun v => v.adsr.is_idle) bank.voices with
      | some i =>
          simp only [VoiceBank.count_voices_in_quick_release]
          exact filterLength_listModify_le _ _ _ _ (fun x hx => by
            simp [Voice.play_note, ADSR.play, ADSRStage.play,
              ADSR.is_in_quick_release] at hx)
      | none => exact le_refl _

lemma count_qr_quick_release_le (bank : VoiceBank) :
    bank.quick_release.count_voices_in_quick_release ≤
      bank.count_voices_in_quick_release + 1 := by
  unfold VoiceBank.quick_release
  cases h1 : minByFirst (fun p => p.2.adsr.output)
      (bank.voices.enum.filter fun p => p.2.adsr.is_in_release) with
  | some a =>
      simp only [VoiceBank.count_voices_in_quick_release]
      exact filterLength_listModify_le_succ _ _ _ _
  | none =>
      cases h2 : minByFirst (fun p => (p.2.timestamp : Int))
          (bank.voices.enum.filter fun p =>
            !p.2.adsr.is_in_quick_release && !p.2.adsr.is_idle) with
      | some a =>
          simp only [VoiceBank.count_voices_in_quick_release]
          exact filterLength_listModify_le_succ _ _ _ _
      | none => exact Nat.le_succ _

lemma voices_length_play_note (T : Tables) (bank : VoiceBank) (note vel : Nat) :
    (bank.play_note T note vel).1.voices.length = bank.voices.length := by
  unfold VoiceBank.play_note
  cases h1 : firstIdx (fun v => v.note == note && !v.adsr.is_idle) bank.voices with
  | some i => simp [length_listModify]
  | none =>
      cases h2 : firstIdx (fun v => v.adsr.is_idle) bank.voices with
      | some i => simp [length_listModify]
      | none => rfl

lemma voices_length_quick_release (bank : VoiceBank) :
    bank.quick_release.voices.length = bank.voices.length := by
  unfold VoiceBank.quick_release
  cases h1 : minByFirst (fun p => p.2.adsr.output)
      (bank.voices.enum.filter fun p => p.2.adsr.is_in_release) with
  | some a => simp [length_listModify]
  | none =>
      cases h2 : minByFirst (fun p => (p.2.timestamp : Int))
          (bank.voices.enum.filter fun p =>
            !p.2.adsr.is_in_quick_release && !p.2.adsr.is_idle) with
      | some a => simp [length_listModify]
      | none => rfl

lemma drain_note_queue_spec (T : Tables) :
    ∀ (queue : List PendingNote) (bank : VoiceBank),
      (SynthEngine.drain_note_queue T bank queue).2.2 ≤ 1 ∧
      (SynthEngine.drain_note_queue T bank queue).2.2 ≤ queue.length ∧
      (SynthEngine.drain_note_queue T bank queue).2.1 <:+ queue ∧
      (SynthEngine.drain_note_queue T bank queue).1.voices.length =
        bank.voices.length ∧
      (SynthEngine.drain_note_queue T bank queue).1.count_voices_in_quick_release
        ≤ max bank.count_voices_in_quick_release queue.length ∧
      ((SynthEngine.drain_note_queue T bank queue).2.2 = 0 →
        (SynthEngine.drain_note_queue T bank queue).1.count_voices_in_quick_release
          ≤ bank.count_voices_in_quick_release) ∧
      ((SynthEngine.drain_note_queue T bank queue).2.2 = 1 →
        (SynthEngine.drain_note_queue T bank queue).1.count_voices_in_quick_release
          ≤ (SynthEngine.drain_note_queue T bank queue).2.1.length) := by
  intro queue
  induction queue with
  | nil =>
      intro bank
      simp [SynthEngine.drain_note_queue]
  | cons p rest ih =>
      intro bank
      cases hpn : bank.play_note T p.note p.velocity with
      | mk b1 r =>
          cases r with
          | Success =>
              have hred : SynthEngine.drain_note_queue T bank (p :: rest) =
                  SynthEngine.drain_note_queue T b1 rest := by
                simp only [SynthEngine.drain_note_queue, hpn]
              have hcount : b1.count_voices_in_quick_release ≤
                  bank.count_voices_in_quick_release := by
                have := count_qr_play_note_le T bank p.note p.velocity
                rw [hpn] at this
                exact this
              obtain ⟨ih1, ih2, ih3, ih4, ih5, ih6, ih7⟩ := ih b1
              have hlen : b1.voices.length = bank.voices.length := by
                have := voices_length_play_note T bank p.note p.velocity
                rw [hpn] at this
                exact this
              rw [hred]
              refine ⟨ih1, by simpa using Nat.le_succ_of_le ih2,
                ih3.trans (List.suffix_cons p rest), by rw [ih4, hlen], ?_,
                fun h0 => le_trans (ih6 h0) hcount, ih7⟩
              simp only [List.length_cons]
              omega
          | AllVoicesBusy =>
              by_cases hguard :
                  rest.length + 1 > bank.count_voices_in_quick_release
              · have hred : SynthEngine.drain_note_queue T bank (p :: rest) =
                    (bank.quick_release, p :: rest, 1) := by
                  simp only [SynthEngine.drain_note_queue, hpn]
                  rw [if_pos hguard]
                rw [hred]
                dsimp only
                have hqr := count_qr_quick_release_le bank
                refine ⟨le_refl 1, by simp, List.suffix_refl _,
                  voices_length_quick_release bank, ?_, ?_, ?_⟩
                · simp only [List.length_cons]
                  omega
                · intro h0
                  cases h0
                · intro _
                  simp only [List.length_cons]
                  omega
              · have hred : SynthEngine.drain_note_queue T bank (p :: rest) =
                    (bank, p :: rest, 0) := by
                  simp only [SynthEngine.drain_note_queue, hpn]
                  rw [if_neg hguard]
                rw [hred]
                dsimp only
                refine ⟨by omega, by simp, List.suffix_refl _, rfl, ?_, ?_, ?_⟩
                · exact le_max_left _ _
                · intro _
                  exact le_refl _
                · intro h1
                  cases h1

/-- C4: during one cycle's draining, a failed `play_note` triggers at most
one `quick_release` (and only under the guard `queued > already-in-QR`)
and stops the drain with the remaining notes still queued in order; so
with `M` notes queued at most `M` quick-releases happen in the drain, the
post-drain QuickRelease population is bounded by
`max (initial QR population) M`, and when the initial QR population and
`M` are both below the bank size `N` the drain never drives all `N`
voices into QuickRelease. -/
theorem c4_drain_never_releases_all (T : Tables) (bank : VoiceBank)
    (queue : List PendingNote) (bank' : VoiceBank) (queue' : List PendingNote)
    (k : Nat)
    (h : SynthEngine.drain_note_queue T bank queue = (bank', queue', k)) :
    k ≤ 1 ∧ k ≤ queue.length ∧ queue' <:+ queue ∧
    bank'.voices.length = bank.voices.length ∧
    bank'.count_voices_in_quick_release ≤
      max bank.count_voices_in_quick_release queue.length ∧
    (k = 0 → bank'.count_voices_in_quick_release ≤
      bank.count_voices_in_quick_release) ∧
    (k = 1 → bank'.count_voices_in_quick_release ≤ queue'.length) ∧
    (bank.count_voices_in_quick_release < bank.voices.length →
      queue.length < bank.voices.length →
      bank'.count_voices_in_quick_release < bank'.voices.length) := by
  obtain ⟨h1, h2, h3, h4, h5, h6, h7⟩ := drain_note_queue_spec T queue bank
  rw [h] at h1 h2 h3 h4 h5 h6 h7
  dsimp only at h1 h2 h3 h4 h5 h6 h7
  refine ⟨h1, h2, h3, h4, h5, h6, h7, ?_⟩
  intro hc hq
  rw [h4]
  omega

lemma adsr_get_samples_length (T : Tables) (n : Nat) (a : ADSR) :
    (a.get_samples T n).2.length = n := by
  induction n generalizing a with
  | zero => rfl
  | succ m ih => simp [ADSR.get_samples, ih]

lemma osc_collect_length (n : Nat) (o : WavetableOscillator) :
    (WavetableOscillator.collect n o).2.length = n := by
  induction n generalizing o with
  | zero => rfl
  | succ m ih => simp [WavetableOscillator.collect, ih]

lemma osc_get_samples_length (n : Nat) (o : WavetableOscillator) :
    (o.get_samples n).2.length = n := by
  simp [WavetableOscillator.get_samples, osc_collect_length]

lemma render_voices_acc_length (T : Tables) (N W : Nat) (vs : List Voice)
    (acc : List Int) (h : acc.length = W) :
    (SynthEngine.render_voices T N W vs acc).2.length = W := by
  induction vs generalizing acc with
  | nil => exact h
  | cons v rest ih =>
      simp only [SynthEngine.render_voices]
      by_cases hidle : v.adsr.is_idle
      · rw [if_pos hidle]
        exact ih acc h
      · rw [if_neg hidle]
        refine ih _ ?_
        simp [h, osc_get_samples_length, adsr_get_samples_length]

/-- C7: `render_samples` refuses (panics on) every buffer whose length is
not `WINDOW_SIZE` — modelled as `none`, never by truncating or padding —
and on a buffer of exactly `WINDOW_SIZE` elements it completes and
produces a full window of `WINDOW_SIZE` samples. -/
theorem c7_render_samples_window_contract (T : Tables) (W : Nat)
    (e : SynthEngine) (cfg : Option Config) (events : List MidiEvent)
    (sample_buffer : List Int) :
    (sample_buffer.length ≠ W →
      e.render_samples T W cfg events sample_buffer = none) ∧
    (sample_buffer.length = W →
      ∃ r, e.render_samples T W cfg events sample_buffer = some r ∧
        r.2.length = W) := by
  constructor
  · intro h
    simp [SynthEngine.render_samples, h]
  · intro h
    simp only [SynthEngine.render_samples, h, ne_eq, not_true_eq_false,
      if_false, ite_false]
    refine ⟨_, rfl, ?_⟩
    exact render_voices_acc_length _ _ _ _ _ (List.length_replicate _ _)

/-- Concrete instance of `c7_render_samples_window_contract`: a fresh
two-voice engine given a 3-element buffer for a 2-sample window refuses
it. -/
theorem c7_witness :
    (SynthEngine.new
      (Tables.mk (fun _ => 0) (fun _ => ⟨0, 0⟩) (fun _ => ⟨0, 0⟩) ⟨0, 0⟩
        (fun _ => 0) (fun _ => 0) (fun _ => 0) (fun _ => 0) (fun _ => 0))
      2 none).render_samples
      (Tables.mk (fun _ => 0) (fun _ => ⟨0, 0⟩) (fun _ => ⟨0, 0⟩) ⟨0, 0⟩
        (fun _ => 0) (fun _ => 0) (fun _ => 0) (fun _ => 0) (fun _ => 0))
      2 none [] [0, 0, 0] = none :=
  (c7_render_samples_window_contract _ 2 _ none [] [0, 0, 0]).1 (by decide)

/-- C1: the engine is a deterministic state machine — two engines freshly
constructed from the same tables, bank size and initial config snapshot,
fed the identical per-cycle config and MIDI event sequence, produce
bit-identical output windows on every cycle. -/
theorem c1_determinism (T : Tables) (W N : Nat) (cfg : Option Config)
    (inputs : List (Option Config × List MidiEvent)) (e1 e2 : SynthEngine)
    (h1 : e1 = SynthEngine.new T N cfg) (h2 : e2 = SynthEngine.new T N cfg) :
    SynthEngine.run T W e1 inputs = SynthEngine.run T W e2 inputs := by
  subst h1
  subst h2
  rfl

/-- Concrete instance of `c1_determinism`: two fresh one-voice engines fed
one identical cycle. -/
theorem c1_witness :
    SynthEngine.run
      (Tables.mk (fun _ => 0) (fun _ => ⟨0, 0⟩) (fun _ => ⟨0, 0⟩) ⟨0, 0⟩
        (fun _ => 0) (fun _ => 0) (fun _ => 0) (fun _ => 0) (fun _ => 0))
      1
      (SynthEngine.new
        (Tables.mk (fun _ => 0) (fun _ => ⟨0, 0⟩) (fun _ => ⟨0, 0⟩) ⟨0, 0⟩
          (fun _ => 0) (fun _ => 0) (fun _ => 0) (fun _ => 0) (fun _ => 0))
        1 none)
      [(none, [MidiEvent.NoteOn 60 100])] =
    SynthEngine.run
      (Tables.mk (fun _ => 0) (fun _ => ⟨0, 0⟩) (fun _ => ⟨0, 0⟩) ⟨0, 0⟩
        (fun _ => 0) (fun _ => 0) (fun _ => 0) (fun _ => 0) (fun _ => 0))
      1
      (SynthEngine.new
        (Tables.mk (fun _ => 0) (fun _ => ⟨0, 0⟩) (fun _ => ⟨0, 0⟩) ⟨0, 0⟩
          (fun _ => 0) (fun _ => 0) (fun _ => 0) (fun _ => 0) (fun _ => 0))
        1 none)
      [(none, [MidiEvent.NoteOn 60 100])] :=
  c1_determinism _ 1 1 none _ _ _ rfl rfl

lemma step_charging_mono (quick : BaseAndCoefficient) (tgt : Int)
    (cap : Capacitor) (h0 : 0 ≤ cap.current) (hlt : cap.current < tgt)
    (hr : ∀ v : Int, 0 ≤ v → v < tgt → v ≤ Capacitor.iterate v cap.rise_coeff) :
    cap.current ≤ ((cap.set_target tgt).step quick).1.current ∧
    ((cap.set_target tgt).step quick).1.current ≤ tgt ∧
    0 ≤ ((cap.set_target tgt).step quick).1.current ∧
    ((cap.set_target tgt).step quick).1.rise_coeff = cap.rise_coeff ∧
    (((cap.set_target tgt).step quick).2 ≠ .ReachedTarget →
      ((cap.set_target tgt).step quick).1.current < tgt) := by
  have hst : (cap.set_target tgt).status = .Charging := by
    simp [Capacitor.set_target, hlt]
  have hcn : cap.current ≤ Capacitor.iterate cap.current cap.rise_coeff :=
    hr cap.current h0 hlt
  simp only [Capacitor.step, hst]
  simp only [Capacitor.set_target]
  generalize Capacitor.iterate cap.current cap.rise_coeff = n at hcn ⊢
  split_ifs with h <;> dsimp only
  · exact ⟨le_of_lt hlt, le_refl tgt, le_trans h0 (le_of_lt hlt), rfl,
      fun hc => absurd rfl hc⟩
  · exact ⟨hcn, by omega, by omega, rfl, fun _ => by omega⟩

lemma step_discharging_mono (quick : BaseAndCoefficient) (tgt : Int)
    (cap : Capacitor) (hgt : tgt < cap.current)
    (hf : ∀ v : Int, tgt < v → Capacitor.iterate v cap.fall_coeff ≤ v) :
    ((cap.set_target tgt).step quick).1.current ≤ cap.current ∧
    tgt ≤ ((cap.set_target tgt).step quick).1.current ∧
    ((cap.set_target tgt).step quick).1.fall_coeff = cap.fall_coeff ∧
    (((cap.set_target tgt).step quick).2 ≠ .ReachedTarget →
      tgt < ((cap.set_target tgt).step quick).1.current) := by
  have hst : (cap.set_target tgt).status = .Discharging := by
    simp only [Capacitor.set_target]
    rw [if_neg (by omega), if_pos hgt]
  have hcn : Capacitor.iterate cap.current cap.fall_coeff ≤ cap.current :=
    hf cap.current hgt
  simp only [Capacitor.step, hst]
  simp only [Capacitor.set_target]
  generalize Capacitor.iterate cap.current cap.fall_coeff = n at hcn ⊢
  split_ifs with h <;> dsimp only
  · exact ⟨le_of_lt hgt, le_refl tgt, rfl, fun hc => absurd rfl hc⟩
  · exact ⟨hcn, by omega, rfl, fun _ => by omega⟩

/-- C8 (amended): while the stage stays in Attack with the capacitor on
the charging side (level in `[0, velocity_amplitude)`) and a rise pair
that never steps downward below the target — as the generated rise tables
provide — successive envelope levels are non-decreasing; while the stage
stays in Decay (level above the decay target) or Release (level above
zero) with a fall pair that never steps upward above the target,
successive levels are non-increasing, the clamp to the target included. -/
theorem c8_envelope_monotonicity (T : Tables) (cfg : ADSRConfig)
    (cap : Capacitor) :
    (0 ≤ cap.current → cap.current < cfg.velocity_amplitude →
      (∀ v : Int, 0 ≤ v → v < cfg.velocity_amplitude →
        v ≤ Capacitor.iterate v cap.rise_coeff) →
      (ADSRStage.progress T cfg .Attack cap).1 = .Attack →
      (ADSRStage.progress T cfg .Attack cap).2.2 ≤
        (ADSRStage.progress T cfg .Attack
          (ADSRStage.progress T cfg .Attack cap).2.1).2.2) ∧
    (mulI31 cfg.sustain_level cfg.velocity_amplitude < cap.current →
      (∀ v : Int, mulI31 cfg.sustain_level cfg.velocity_amplitude < v →
        Capacitor.iterate v cap.fall_coeff ≤ v) →
      (ADSRStage.progress T cfg .Decay cap).1 = .Decay →
      (ADSRStage.progress T cfg .Decay
        (ADSRStage.progress T cfg .Decay cap).2.1).2.2 ≤
        (ADSRStage.progress T cfg .Decay cap).2.2) ∧
    (0 < cap.current →
      (∀ v : Int, 0 < v → Capacitor.iterate v cap.fall_coeff ≤ v) →
      (ADSRStage.progress T cfg .Release cap).1 = .Release →
      (ADSRStage.progress T cfg .Release
        (ADSRStage.progress T cfg .Release cap).2.1).2.2 ≤
        (ADSRStage.progress T cfg .Release cap).2.2) := by
  refine ⟨?_, ?_, ?_⟩
  · intro h0 hlt hr hstay
    obtain ⟨ha1, ha2, ha3, ha4, ha5⟩ :=
      step_charging_mono T.quick_fall cfg.velocity_amplitude cap h0 hlt hr
    simp only [ADSRStage.progress] at hstay ⊢
    have hne : ((cap.set_target cfg.velocity_amplitude).step T.quick_fall).2 ≠
        .ReachedTarget := by
      intro hc
      rw [if_pos hc] at hstay
      cases hstay
    have hlt1 := ha5 hne
    obtain ⟨hb1, hb2, hb3, hb4, hb5⟩ :=
      step_charging_mono T.quick_fall cfg.velocity_amplitude
        ((cap.set_target cfg.velocity_amplitude).step T.quick_fall).1
        ha3 hlt1 (by rw [ha4]; exact hr)
    simpa [Capacitor.get_level] using hb1
  · intro hgt hf hstay
    obtain ⟨ha1, ha2, ha3, ha4⟩ :=
      step_discharging_mono T.quick_fall
        (mulI31 cfg.sustain_level cfg.velocity_amplitude) cap hgt hf
    simp only [ADSRStage.progress] at hstay ⊢
    have hne : ((cap.set_target
        (mulI31 cfg.sustain_level cfg.velocity_amplitude)).step T.quick_fall).2 ≠
        .ReachedTarget := by
      intro hc
      rw [if_pos hc] at hstay
      cases hstay
    have hgt1 := ha4 hne
    obtain ⟨hb1, hb2, hb3, hb4⟩ :=
      step_discharging_mono T.quick_fall
        (mulI31 cfg.sustain_level cfg.velocity_amplitude)
        ((cap.set_target
          (mulI31 cfg.sustain_level cfg.velocity_amplitude)).step T.quick_fall).1
        hgt1 (by rw [ha3]; exact hf)
    simpa [Capacitor.get_level] using hb1
  · intro hgt hf hstay
    obtain ⟨ha1, ha2, ha3, ha4⟩ :=
      step_discharging_mono T.quick_fall 0 cap hgt hf
    simp only [ADSRStage.progress] at hstay ⊢
    have hne : ((cap.set_target 0).step T.quick_fall).2 ≠ .ReachedTarget := by
      intro hc
      rw [if_pos hc] at hstay
      cases hstay
    have hgt1 := ha4 hne
    obtain ⟨hb1, hb2, hb3, hb4⟩ :=
      step_discharging_mono T.quick_fall 0
        ((cap.set_target 0).step T.quick_fall).1 hgt1 (by rw [ha3]; exact hf)
    simpa [Capacitor.get_level] using hb1

/-- C8 counterexample: an ADSR whose stage is and stays Attack but whose
capacitor level sits above the velocity amplitude (the retrigger-quieter
scenario the crate's own tests exercise) emits strictly decreasing
samples while remaining in Attack, so "during Attack successive samples
are non-decreasing" fails as stated. -/
theorem c8_counterexample :
    (ADSRStage.progress
      (Tables.mk (fun _ => 0) (fun _ => ⟨0, 0⟩) (fun _ => ⟨0, 0⟩) ⟨0, 0⟩
        (fun _ => 0) (fun _ => 0) (fun _ => 0) (fun _ => 0) (fun _ => 0))
      (ADSRConfig.mk 0 (2 ^ 27) ⟨0, 0⟩ ⟨0, 0⟩) .Attack
      (Capacitor.mk (2 ^ 30) 0 ⟨0, 0⟩ ⟨-(2 ^ 26), 2 ^ 30⟩ .ReachedTarget)).1 =
        .Attack ∧
    (ADSRStage.progress
      (Tables.mk (fun _ => 0) (fun _ => ⟨0, 0⟩) (fun _ => ⟨0, 0⟩) ⟨0, 0⟩
        (fun _ => 0) (fun _ => 0) (fun _ => 0) (fun _ => 0) (fun _ => 0))
      (ADSRConfig.mk 0 (2 ^ 27) ⟨0, 0⟩ ⟨0, 0⟩) .Attack
      (ADSRStage.progress
        (Tables.mk (fun _ => 0) (fun _ => ⟨0, 0⟩) (fun _ => ⟨0, 0⟩) ⟨0, 0⟩
          (fun _ => 0) (fun _ => 0) (fun _ => 0) (fun _ => 0) (fun _ => 0))
        (ADSRConfig.mk 0 (2 ^ 27) ⟨0, 0⟩ ⟨0, 0⟩) .Attack
        (Capacitor.mk (2 ^ 30) 0 ⟨0, 0⟩ ⟨-(2 ^ 26), 2 ^ 30⟩
          .ReachedTarget)).2.1).1 = .Attack ∧
    (ADSRStage.progress
      (Tables.mk (fun _ => 0) (fun _ => ⟨0, 0⟩) (fun _ => ⟨0, 0⟩) ⟨0, 0⟩
        (fun _ => 0) (fun _ => 0) (fun _ => 0) (fun _ => 0) (fun _ => 0))
      (ADSRConfig.mk 0 (2 ^ 27) ⟨0, 0⟩ ⟨0, 0⟩) .Attack
      (ADSRStage.progress
        (Tables.mk (fun _ => 0) (fun _ => ⟨0, 0⟩) (fun _ => ⟨0, 0⟩) ⟨0, 0⟩
          (fun _ => 0) (fun _ => 0) (fun _ => 0) (fun _ => 0) (fun _ => 0))
        (ADSRConfig.mk 0 (2 ^ 27) ⟨0, 0⟩ ⟨0, 0⟩) .Attack
        (Capacitor.mk (2 ^ 30) 0 ⟨0, 0⟩ ⟨-(2 ^ 26), 2 ^ 30⟩
          .ReachedTarget)).2.1).2.2 <
      (ADSRStage.progress
        (Tables.mk (fun _ => 0) (fun _ => ⟨0, 0⟩) (fun _ => ⟨0, 0⟩) ⟨0, 0⟩
          (fun _ => 0) (fun _ => 0) (fun _ => 0) (fun _ => 0) (fun _ => 0))
        (ADSRConfig.mk 0 (2 ^ 27) ⟨0, 0⟩ ⟨0, 0⟩) .Attack
        (Capacitor.mk (2 ^ 30) 0 ⟨0, 0⟩ ⟨-(2 ^ 26), 2 ^ 30⟩
          .ReachedTarget)).2.2 := by
  refine ⟨by decide, by decide, by decide⟩

/-- Concrete instance of the Attack conjunct of
`c8_envelope_monotonicity`: a charging capacitor two below its target. -/
theorem c8_witness :
    (ADSRStage.progress
      (Tables.mk (fun _ => 0) (fun _ => ⟨0, 0⟩) (fun _ => ⟨0, 0⟩) ⟨0, 0⟩
        (fun _ => 0) (fun _ => 0) (fun _ => 0) (fun _ => 0) (fun _ => 0))
      (ADSRConfig.mk 0 3 ⟨0, 0⟩ ⟨0, 0⟩) .Attack
      (Capacitor.mk 2 0 ⟨1, 2 ^ 30⟩ ⟨0, 0⟩ .ReachedTarget)).2.2 ≤
    (ADSRStage.progress
      (Tables.mk (fun _ => 0) (fun _ => ⟨0, 0⟩) (fun _ => ⟨0, 0⟩) ⟨0, 0⟩
        (fun _ => 0) (fun _ => 0) (fun _ => 0) (fun _ => 0) (fun _ => 0))
      (ADSRConfig.mk 0 3 ⟨0, 0⟩ ⟨0, 0⟩) .Attack
      (ADSRStage.progress
        (Tables.mk (fun _ => 0) (fun _ => ⟨0, 0⟩) (fun _ => ⟨0, 0⟩) ⟨0, 0⟩
          (fun _ => 0) (fun _ => 0) (fun _ => 0) (fun _ => 0) (fun _ => 0))
        (ADSRConfig.mk 0 3 ⟨0, 0⟩ ⟨0, 0⟩) .Attack
        (Capacitor.mk 2 0 ⟨1, 2 ^ 30⟩ ⟨0, 0⟩ .ReachedTarget)).2.1).2.2 :=
  (c8_envelope_monotonicity _ _ _).1 (by decide) (by decide)
    (by
      intro v h1 h2
      interval_cases v <;> decide)
    (by decide)

/-- Concrete instance of `c2_play_note_cases`: a one-voice bank whose only
voice holds a different note and is busy reports `AllVoicesBusy` and is
left unchanged. -/
theorem c2_witness :
    (VoiceBank.mk
      [Voice.mk 0 10 0
        (ADSR.mk .Sustain (ADSRConfig.mk 0 0 ⟨0, 0⟩ ⟨0, 0⟩)
          (Capacitor.new ⟨0, 0⟩ ⟨0, 0⟩))
        (WavetableOscillator.new fun _ => 0)] 0).play_note
      (Tables.mk (fun _ => 0) (fun _ => ⟨0, 0⟩) (fun _ => ⟨0, 0⟩) ⟨0, 0⟩
        (fun _ => 0) (fun _ => 0) (fun _ => 0) (fun _ => 0) (fun _ => 0))
      60 100 =
    (VoiceBank.mk
      [Voice.mk 0 10 0
        (ADSR.mk .Sustain (ADSRConfig.mk 0 0 ⟨0, 0⟩ ⟨0, 0⟩)
          (Capacitor.new ⟨0, 0⟩ ⟨0, 0⟩))
        (WavetableOscillator.new fun _ => 0)] 0, .AllVoicesBusy) :=
  (c2_play_note_cases _ _ 60 100).2.2
    (by
      intro v hv
      rw [List.mem_singleton] at hv
      subst hv
      simp)
    (by
      intro v hv
      rw [List.mem_singleton] at hv
      subst hv
      simp)

/-- Concrete instance of `c3_quick_release_selection`: a bank whose only
voice is idle is untouched by `quick_release`. -/
theorem c3_witness :
    (VoiceBank.mk
      [Voice.mk 0 10 0
        (ADSR.mk .Idle (ADSRConfig.mk 0 0 ⟨0, 0⟩ ⟨0, 0⟩)
          (Capacitor.new ⟨0, 0⟩ ⟨0, 0⟩))
        (WavetableOscillator.new fun _ => 0)] 0).quick_release =
    VoiceBank.mk
      [Voice.mk 0 10 0
        (ADSR.mk .Idle (ADSRConfig.mk 0 0 ⟨0, 0⟩ ⟨0, 0⟩)
          (Capacitor.new ⟨0, 0⟩ ⟨0, 0⟩))
        (WavetableOscillator.new fun _ => 0)] 0 :=
  (c3_quick_release_selection _).2.2
    (by
      intro v hv
      rw [List.mem_singleton] at hv
      subst hv
      simp)
    (by
      intro v hv
      rw [List.mem_singleton] at hv
      subst hv
      exact Or.inl rfl)

/-- Concrete instance of `c4_drain_never_releases_all`: one busy voice,
one queued note, one quick-release fired; the post-drain QuickRelease
population is bounded by the queued demand. -/
theorem c4_witness :
    ((VoiceBank.mk
      [Voice.mk 0 70 0
        (ADSR.mk .Sustain (ADSRConfig.mk 0 0 ⟨0, 0⟩ ⟨0, 0⟩)
          (Capacitor.new ⟨0, 0⟩ ⟨0, 0⟩))
        (WavetableOscillator.new fun _ => 0)] 0).quick_release).count_voices_in_quick_release ≤
      [PendingNote.mk 60 100].length :=
  (c4_drain_never_releases_all
    (Tables.mk (fun _ => 0) (fun _ => ⟨0, 0⟩) (fun _ => ⟨0, 0⟩) ⟨0, 0⟩
      (fun _ => 0) (fun _ => 0) (fun _ => 0) (fun _ => 0) (fun _ => 0))
    (VoiceBank.mk
      [Voice.mk 0 70 0
        (ADSR.mk .Sustain (ADSRConfig.mk 0 0 ⟨0, 0⟩ ⟨0, 0⟩)
          (Capacitor.new ⟨0, 0⟩ ⟨0, 0⟩))
        (WavetableOscillator.new fun _ => 0)] 0)
    [PendingNote.mk 60 100]
    ((VoiceBank.mk
      [Voice.mk 0 70 0
        (ADSR.mk .Sustain (ADSRConfig.mk 0 0 ⟨0, 0⟩ ⟨0, 0⟩)
          (Capacitor.new ⟨0, 0⟩ ⟨0, 0⟩))
        (WavetableOscillator.new fun _ => 0)] 0).quick_release)
    [PendingNote.mk 60 100] 1 rfl).2.2.2.2.2.2.1 rfl
